import Mathlib

/-!
# Verification of the dashboard-fix detection service

Shallow embedding of `src/dashboard-fix.py` (`YOLODetectionSystem`).

Modelling conventions:
* labels (Python `str`) are `List Char`; lowering a label maps
  `Char.toLower` over its characters, mirroring `str.lower()`;
* wall-clock timestamps (`time.time()` floats) are rationals `ℚ`;
* the camera handle is `Option Nat` (`None` / a `cv2.VideoCapture`);
* `threading.Thread(...).start()` is modelled by a counter `threads`
  of background capture loops spawned and still script-visible;
* the opaque YOLO model call is an oracle: each captured frame carries
  `inference : Option (List (List Char))`, where `none` means the call
  raised an exception and `some labels` is the list of detected class
  names; `encode_ok` models the `cv2.imencode` success flag;
* emitted Socket.IO events are collected into a `List Emit`.
-/

namespace DashboardFix

/-- The `stats` dictionary inside `detection_results`:
cumulative production counters. -/
structure Stats where
  total : Nat
  pass : Nat
  ng : Nat
deriving DecidableEq, Repr

/-- The mutable per-session state of `YOLODetectionSystem`.
`last_detection_time` is `none` until the lazily `hasattr`-guarded
assignment in `update_statistics` first runs. -/
structure SessionState where
  is_running : Bool
  camera : Option Nat
  current_frame : Option Nat
  has_defects : Bool
  detections : List (List Char)
  status : String
  stats : Stats
  fps : Nat
  fps_counter : Nat
  fps_start_time : ℚ
  last_detection_time : Option ℚ
  threads : Nat
deriving DecidableEq, Repr

/-- Constructor state (`__init__`) right after construction, at
wall-clock time `t0` (`fps_start_time = time.time()`). -/
def initState (t0 : ℚ) : SessionState :=
  { is_running := false
    camera := none
    current_frame := none
    has_defects := false
    detections := []
    status := "PASS"
    stats := { total := 0, pass := 0, ng := 0 }
    fps := 0
    fps_counter := 0
    fps_start_time := t0
    last_detection_time := none
    threads := 0 }

/-- The fixed literal spellings of line 79:
`['sg-defect', 'sg_defect', 'sgdefect', 'sg defect', 'defect']`. -/
def defect_classes : List (List Char) :=
  ["sg-defect".toList, "sg_defect".toList, "sgdefect".toList,
   "sg defect".toList, "defect".toList]

/-- Lines 80-82: a label counts as a defect when its lowercase form is
one of `defect_classes`, or contains `"defect"`, or contains `"sg"`. -/
def is_defect (class_name : List Char) : Bool :=
  let lower := class_name.map Char.toLower
  decide (lower ∈ defect_classes) ||
    decide ("defect".toList <:+: lower) ||
    decide ("sg".toList <:+: lower)

/-- Lines 52-107 (`process_detections`), restricted to its data flow:
the loop over the boxes threads a `defects_detected` flag (initially
`False`, forced to `True` by any defect) and appends every detection.
The drawing calls mutate only the image and are dropped. -/
def process_detections (labels : List (List Char)) :
    Bool × List (List Char) :=
  labels.foldl
    (fun acc class_name =>
      (acc.1 || is_defect class_name, acc.2 ++ [class_name]))
    (false, [])

/-- Lines 109-114: `determine_status`. -/
def determine_status (defects_detected : Bool) : String :=
  if defects_detected then "NG" else "PASS"

/-- Lines 116-129: `update_statistics`.  The missing attribute is read
as `0`; counters move only when strictly more than `3.0` seconds have
passed since `last_detection_time`. -/
def update_statistics (s : SessionState) (status : String)
    (current_time : ℚ) : SessionState :=
  let last := s.last_detection_time.getD 0
  if 3 < current_time - last then
    let st1 : Stats := { s.stats with total := s.stats.total + 1 }
    let st2 : Stats :=
      if status = "NG" then { st1 with ng := st1.ng + 1 }
      else if status = "PASS" then { st1 with pass := st1.pass + 1 }
      else st1
    { s with stats := st2, last_detection_time := some current_time }
  else
    { s with last_detection_time := some last }

/-- Lines 131-138: `calculate_fps`. -/
def calculate_fps (s : SessionState) (current_time : ℚ) : SessionState :=
  let c := s.fps_counter + 1
  if 1 ≤ current_time - s.fps_start_time then
    { s with fps := c, fps_counter := 0, fps_start_time := current_time }
  else
    { s with fps_counter := c }

/-- Python `round(q, 1)` on the published rate, modelled over `ℚ`. -/
def pyRound1 (q : ℚ) : ℚ := (round (q * 10) : ℤ) / 10

/-- Lines 206-207: `round(ng / max(1, total) * 100, 1)`. -/
def ng_rate (st : Stats) : ℚ :=
  pyRound1 ((st.ng : ℚ) / ((max 1 st.total : ℕ) : ℚ) * 100)

/-- One camera read, as seen by the capture loop: the frame identity
`raw`, the outcome of the opaque model call (`none` = the call raised),
and whether `cv2.imencode` succeeds on the annotated frame. -/
structure Frame where
  raw : Nat
  inference : Option (List (List Char))
  encode_ok : Bool
deriving DecidableEq, Repr

/-- The two Socket.IO broadcasts of lines 200-209. -/
inductive Emit where
  | detection_result (status : String) (defects_detected : Bool)
      (pass_count ng_count total_count : Nat) (rate : ℚ)
  | video_frame (frame : Nat)
deriving DecidableEq, Repr

/-- Lines 147-213: the body of one capture-loop pass at wall-clock time
`current_time`.  If the model call raises, the `except` branch stores
the raw frame as `current_frame` and nothing is emitted; otherwise the
frame is processed, statistics and FPS are updated, and (when encoding
succeeds) the two events are emitted. -/
def loop_body (s : SessionState) (current_time : ℚ) (f : Frame) :
    SessionState × List Emit :=
  match f.inference with
  | none => ({ s with current_frame := some f.raw }, [])
  | some labels =>
      let pd := process_detections labels
      let current_status := determine_status pd.1
      let s1 := { s with has_defects := pd.1, detections := pd.2,
                         status := current_status }
      let s2 := update_statistics s1 current_status current_time
      let s3 := calculate_fps s2 current_time
      let s4 := { s3 with current_frame := some f.raw }
      let emits :=
        if f.encode_ok then
          [Emit.detection_result current_status pd.1
             s4.stats.pass s4.stats.ng s4.stats.total (ng_rate s4.stats),
           Emit.video_frame f.raw]
        else []
      (s4, emits)

/-- Lines 140-215: `generate_frames`, driven by a finite trace of
timestamped camera reads (`none` = `ret` was falsy, i.e. end-of-stream
or read failure).  The `while` guard `is_running and camera is not None`
is re-checked before every read; a failed read `break`s out. -/
def generate_frames :
    SessionState → List (ℚ × Option Frame) → SessionState × List Emit
  | s, [] => (s, [])
  | s, (t, r) :: rest =>
      if s.is_running = true ∧ s.camera ≠ none then
        match r with
        | none => (s, [])
        | some f =>
            let p := loop_body s t f
            let q := generate_frames p.1 rest
            (q.1, p.2 ++ q.2)
      else (s, [])

/-- Lines 38-48: `initialize_camera` (renamed: `init_camera`).  The
oracle `cam_ok` says whether `cv2.VideoCapture` raises; on success the
handle is stored, on failure the method returns `False` and the state
is untouched. -/
def init_camera (s : SessionState) (cam_ok : Bool) :
    SessionState × Bool :=
  if cam_ok then ({ s with camera := some 0 }, true) else (s, false)

/-- Lines 217-223: `start_detection`.  Note: there is no `is_running`
guard in the source; the camera is (re)acquired and a fresh background
thread is spawned unconditionally whenever acquisition succeeds. -/
def start_detection (s : SessionState) (cam_ok : Bool) :
    SessionState × Bool :=
  let p := init_camera s cam_ok
  if p.2 then
    ({ p.1 with is_running := true, threads := p.1.threads + 1 }, true)
  else (p.1, false)

/-- Lines 225-230: `stop_detection`. -/
def stop_detection (s : SessionState) : SessionState :=
  let s1 := { s with is_running := false }
  match s1.camera with
  | some _ => { s1 with camera := none }
  | none => s1

/-- Lines 232-236: `restart_detection` (`time.sleep(0.5)` has no
state-visible effect and is dropped). -/
def restart_detection (s : SessionState) (cam_ok : Bool) :
    SessionState × Bool :=
  start_detection (stop_detection s) cam_ok

/-- The wall-clock times at which a run of `update_statistics` over a
trace of `(time, status)` events actually increments the counters. -/
def inc_times : SessionState → List (ℚ × String) → List ℚ
  | _, [] => []
  | s, (t, status) :: rest =>
      let s1 := update_statistics s status t
      if s.stats.total < s1.stats.total then t :: inc_times s1 rest
      else inc_times s1 rest

/-! ## Helper lemmas -/

/-- The `defects_detected` flag computed by the fold is the disjunction
of `is_defect` over the labels, whatever the accumulator. -/
lemma foldl_defects_fst (labels : List (List Char)) (b : Bool)
    (acc : List (List Char)) :
    (labels.foldl
      (fun acc class_name =>
        (acc.1 || is_defect class_name, acc.2 ++ [class_name]))
      (b, acc)).1 = (b || labels.any is_defect) := by
  induction labels generalizing b acc with
  | nil => simp
  | cons x xs ih => simp [List.foldl_cons, ih, Bool.or_assoc]

lemma process_detections_fst (labels : List (List Char)) :
    (process_detections labels).1 = labels.any is_defect := by
  simpa [process_detections] using foldl_defects_fst labels false []

/-! ## C2: defect classification -/

/-- C2.  `is_defect L` is true iff the lowercased label is one of the
fixed literal spellings, or contains `"defect"`, or contains `"sg"`. -/
theorem is_defect_spec (L : List Char) :
    is_defect L = true ↔
      (L.map Char.toLower ∈ defect_classes ∨
        "defect".toList <:+: L.map Char.toLower ∨
        "sg".toList <:+: L.map Char.toLower) := by
  simp [is_defect, Bool.or_eq_true, decide_eq_true_eq, or_assoc]

/-! ## C3: frame status -/

/-- C3.  The status of a processed frame is `"NG"` iff at least one
of its detections is classified as a defect, and `"PASS"` otherwise. -/
theorem determine_status_ng_iff (labels : List (List Char)) :
    (determine_status (process_detections labels).1 = "NG" ↔
      ∃ l ∈ labels, is_defect l = true) ∧
    (determine_status (process_detections labels).1 = "PASS" ↔
      ¬ ∃ l ∈ labels, is_defect l = true) := by
  have h := process_detections_fst labels
  rw [h]
  cases hb : labels.any is_defect with
  | false =>
      have : ¬ ∃ l ∈ labels, is_defect l = true := by
        simpa [List.any_eq_true] using hb
      simp [determine_status, this]
  | true =>
      have : ∃ l ∈ labels, is_defect l = true := by
        simpa [List.any_eq_true] using hb
      simp [determine_status, this]

/-! ## C9: total = pass + ng -/

/-- C9.  `determine_status` only ever returns `"PASS"` or `"NG"`, and
`update_statistics` fed such a status preserves the invariant
`total = pass + ng` (when `total` steps, exactly one of `pass`, `ng`
steps with it). -/
theorem stats_total_eq_pass_add_ng :
    (∀ b : Bool, determine_status b = "PASS" ∨ determine_status b = "NG") ∧
    (∀ (s : SessionState) (status : String) (t : ℚ),
      (status = "PASS" ∨ status = "NG") →
      s.stats.total = s.stats.pass + s.stats.ng →
      (update_statistics s status t).stats.total =
        (update_statistics s status t).stats.pass +
          (update_statistics s status t).stats.ng) := by
  constructor
  · intro b
    cases b <;> simp [determine_status]
  · intro s status t hst hinv
    rcases hst with h | h <;> subst h <;>
      simp [update_statistics] <;> split <;> simp [hinv] <;> omega

/-- Witness for C9 at a concrete state. -/
theorem stats_total_eq_pass_add_ng_witness :
    (update_statistics (initState 0) "PASS" 10).stats.total =
      (update_statistics (initState 0) "PASS" 10).stats.pass +
        (update_statistics (initState 0) "PASS" 10).stats.ng :=
  stats_total_eq_pass_add_ng.2 (initState 0) "PASS" 10 (Or.inl rfl) rfl

/-! ## C10: guarded ng_rate -/

/-- C10.  The `ng_rate` denominator `max(1, total)` is positive for
every statistics state, `update_statistics` preserves `ng ≤ total`,
and in any state with `ng ≤ total` and `total = 0` the published rate
is `0`. -/
theorem ng_rate_guarded :
    (∀ st : Stats, (0 : ℚ) < ((max 1 st.total : ℕ) : ℚ)) ∧
    (∀ (s : SessionState) (status : String) (t : ℚ),
      s.stats.ng ≤ s.stats.total →
      (update_statistics s status t).stats.ng ≤
        (update_statistics s status t).stats.total) ∧
    (∀ st : Stats, st.ng ≤ st.total → st.total = 0 → ng_rate st = 0) := by
  refine ⟨?_, ?_, ?_⟩
  · intro st
    have : (0 : ℕ) < max 1 st.total := lt_of_lt_of_le Nat.one_pos (le_max_left _ _)
    exact_mod_cast this
  · intro s status t h
    simp only [update_statistics]
    split_ifs <;> simp_all <;> omega
  · intro st hle h0
    have hng : st.ng = 0 := Nat.le_antisymm (h0 ▸ hle) (Nat.zero_le _)
    simp [ng_rate, pyRound1, hng]

/-- Witness for C10 at the all-zero statistics state. -/
theorem ng_rate_guarded_witness :
    ng_rate { total := 0, pass := 0, ng := 0 } = 0 :=
  ng_rate_guarded.2.2 { total := 0, pass := 0, ng := 0 }
    (Nat.le_refl 0) rfl

/-! ## C7: counters persist across stop/start -/

/-- C7.  Neither `stop_detection` nor `start_detection` writes the
cumulative counters, so `stop` followed by `start` leaves them
unchanged; they are set (to zero) only at construction. -/
theorem stop_start_preserves_stats :
    ∀ (s : SessionState) (cam_ok : Bool),
      (stop_detection s).stats = s.stats ∧
      (start_detection s cam_ok).1.stats = s.stats ∧
      (start_detection (stop_detection s) cam_ok).1.stats = s.stats ∧
      (∀ t0 : ℚ, (initState t0).stats = { total := 0, pass := 0, ng := 0 }) := by
  intro s cam_ok
  have hstop : (stop_detection s).stats = s.stats := by
    simp only [stop_detection]
    split <;> rfl
  have hstart : ∀ s' : SessionState,
      (start_detection s' cam_ok).1.stats = s'.stats := by
    intro s'
    cases cam_ok <;> rfl
  exact ⟨hstop, hstart s, by rw [hstart (stop_detection s), hstop],
    fun _ => rfl⟩

/-! ## C8: restart from Stopped equals start -/

/-- C8.  From a stopped state (`is_running = false`, no camera handle),
`restart_detection` returns the same value and produces the same state
as `start_detection`. -/
theorem restart_stopped_eq_start :
    ∀ (s : SessionState) (cam_ok : Bool),
      s.is_running = false → s.camera = none →
      restart_detection s cam_ok = start_detection s cam_ok := by
  intro s cam_ok hrun hcam
  have hstop : stop_detection s = s := by
    obtain ⟨r, c, cf, hd, d, st, sts, f, fc, fst, ldt, th⟩ := s
    simp only at hrun hcam
    subst hrun hcam
    rfl
  rw [restart_detection, hstop]

/-- Witness for C8 at the freshly constructed (stopped) state. -/
theorem restart_stopped_eq_start_witness :
    restart_detection (initState 0) true = start_detection (initState 0) true :=
  restart_stopped_eq_start (initState 0) true rfl rfl

/-! ## C1: start while running -/

/-- A session that is already running with one active capture loop. -/
def aRunningState : SessionState :=
  { initState 0 with is_running := true, camera := some 0, threads := 1 }

/-- Counterexample to C1: invoking `start_detection` on a running
session with a working camera is not a no-op — a second background
capture loop is spawned (`threads` goes from 1 to 2). -/
theorem start_running_not_noop :
    aRunningState.is_running = true ∧
    aRunningState.threads = 1 ∧
    (start_detection aRunningState true).1.threads = 2 := by
  exact ⟨rfl, rfl, rfl⟩

/-- C1, amended.  `start_detection` is not guarded by the running
boolean: whenever camera acquisition succeeds — also while already
running — it stores a fresh camera handle, marks the session running,
and spawns one additional background loop; on acquisition failure it
returns false and leaves the state untouched.  In neither case are the
cumulative counters reset or modified. -/
theorem start_detection_unguarded :
    ∀ (s : SessionState) (cam_ok : Bool),
      (start_detection s cam_ok).1.stats = s.stats ∧
      (cam_ok = true →
        (start_detection s cam_ok).1.threads = s.threads + 1 ∧
        (start_detection s cam_ok).1.is_running = true ∧
        (start_detection s cam_ok).1.camera = some 0 ∧
        (start_detection s cam_ok).2 = true) ∧
      (cam_ok = false →
        (start_detection s cam_ok).1 = s ∧
        (start_detection s cam_ok).2 = false) := by
  intro s cam_ok
  cases cam_ok with
  | true =>
      exact ⟨rfl, fun _ => ⟨rfl, rfl, rfl, rfl⟩, fun h => Bool.noConfusion h⟩
  | false =>
      exact ⟨rfl, fun h => Bool.noConfusion h, fun _ => ⟨rfl, rfl⟩⟩

/-- Witness for the amended C1 at the running session. -/
theorem start_detection_unguarded_witness :
    (start_detection aRunningState true).1.threads = aRunningState.threads + 1 ∧
    (start_detection aRunningState false).1 = aRunningState :=
  ⟨((start_detection_unguarded aRunningState true).2.1 rfl).1,
    ((start_detection_unguarded aRunningState false).2.2 rfl).1⟩

/-! ## C5: read failure leaves the running flag set -/

/-- C5.  When the camera read fails while the loop is live, the loop
terminates at once — emitting nothing and ignoring any later reads —
and the state is returned unchanged, so `is_running` is still `true`
and the camera handle is still set. -/
theorem read_failure_leaves_running :
    ∀ (s : SessionState) (t : ℚ) (rest : List (ℚ × Option Frame)),
      s.is_running = true → s.camera ≠ none →
      generate_frames s ((t, none) :: rest) = (s, []) ∧
      (generate_frames s ((t, none) :: rest)).1.is_running = true ∧
      (generate_frames s ((t, none) :: rest)).1.camera = s.camera := by
  intro s t rest hrun hcam
  have h : generate_frames s ((t, none) :: rest) = (s, []) := by
    simp [generate_frames, hrun, hcam]
  exact ⟨h, by rw [h]; exact hrun, by rw [h]⟩

/-- Witness for C5 at the running session. -/
theorem read_failure_leaves_running_witness :
    generate_frames aRunningState [(7, none)] = (aRunningState, []) :=
  (read_failure_leaves_running aRunningState 7 [] rfl (by simp [aRunningState])).1

/-! ## C6: inference exception is caught, frame skipped, loop continues -/

/-- C6.  If the model call raises on an iteration, the body publishes
nothing, stores the raw camera frame as the current frame, changes
nothing else, and the loop proceeds to the next iteration. -/
theorem inference_error_skips_publish :
    ∀ (s : SessionState) (t : ℚ) (f : Frame)
      (rest : List (ℚ × Option Frame)),
      s.is_running = true → s.camera ≠ none → f.inference = none →
      loop_body s t f = ({ s with current_frame := some f.raw }, []) ∧
      generate_frames s ((t, some f) :: rest) =
        generate_frames { s with current_frame := some f.raw } rest := by
  intro s t f rest hrun hcam hinf
  have hbody : loop_body s t f = ({ s with current_frame := some f.raw }, []) := by
    simp [loop_body, hinf]
  refine ⟨hbody, ?_⟩
  simp only [generate_frames, hrun, hcam, ne_eq, not_false_iff,
    and_self, if_true, hbody]
  simp

/-- Witness for C6: a raising frame in a running session. -/
theorem inference_error_skips_publish_witness :
    loop_body aRunningState 7 { raw := 5, inference := none, encode_ok := true } =
      ({ aRunningState with current_frame := some 5 }, []) :=
  (inference_error_skips_publish aRunningState 7
    { raw := 5, inference := none, encode_ok := true } [] rfl
    (by simp [aRunningState]) rfl).1

/-! ## C4: 3-second debounce on the counters -/

lemma us_total_lt_iff (s : SessionState) (status : String) (t : ℚ) :
    s.stats.total < (update_statistics s status t).stats.total ↔
      3 < t - s.last_detection_time.getD 0 := by
  simp only [update_statistics]
  split_ifs with h <;> simp [h]

lemma us_stats_noninc (s : SessionState) (status : String) (t : ℚ)
    (h : ¬ 3 < t - s.last_detection_time.getD 0) :
    (update_statistics s status t).stats = s.stats := by
  simp [update_statistics, h]

lemma us_last_inc (s : SessionState) (status : String) (t : ℚ)
    (h : 3 < t - s.last_detection_time.getD 0) :
    (update_statistics s status t).last_detection_time = some t := by
  simp [update_statistics, h]

lemma us_last_noninc (s : SessionState) (status : String) (t : ℚ)
    (h : ¬ 3 < t - s.last_detection_time.getD 0) :
    (update_statistics s status t).last_detection_time =
      some (s.last_detection_time.getD 0) := by
  simp [update_statistics, h]

/-- Along any event trace, every increment time exceeds the stored
timestamp by more than 3 seconds, and consecutive increment times are
more than 3 seconds apart. -/
lemma inc_times_sep (evs : List (ℚ × String)) :
    ∀ s : SessionState,
      (∀ x ∈ inc_times s evs, s.last_detection_time.getD 0 + 3 < x) ∧
      List.Chain' (fun a b : ℚ => a + 3 < b) (inc_times s evs) := by
  induction evs with
  | nil => intro s; simp [inc_times]
  | cons e rest ih =>
      obtain ⟨t, status⟩ := e
      intro s
      obtain ⟨ihall, ihchain⟩ := ih (update_statistics s status t)
      by_cases h : 3 < t - s.last_detection_time.getD 0
      · have hinc : s.stats.total < (update_statistics s status t).stats.total :=
          (us_total_lt_iff s status t).mpr h
        have hit : inc_times s ((t, status) :: rest) =
            t :: inc_times (update_statistics s status t) rest := by
          simp [inc_times, hinc]
        have hall : ∀ x ∈ inc_times (update_statistics s status t) rest,
            t + 3 < x := by
          intro x hx
          have := ihall x hx
          rwa [us_last_inc s status t h, Option.getD_some] at this
        constructor
        · intro x hx
          rw [hit] at hx
          rcases List.mem_cons.mp hx with rfl | hx
          · linarith
          · have := hall x hx
            linarith
        · rw [hit]
          refine List.chain'_cons'.mpr ⟨?_, ihchain⟩
          intro y hy
          exact hall y (List.mem_of_mem_head? hy)
      · have hninc : ¬ s.stats.total < (update_statistics s status t).stats.total := by
          rw [us_total_lt_iff]; exact h
        have hit : inc_times s ((t, status) :: rest) =
            inc_times (update_statistics s status t) rest := by
          simp [inc_times, hninc]
        rw [hit]
        refine ⟨?_, ihchain⟩
        intro x hx
        have := ihall x hx
        rwa [us_last_noninc s status t h, Option.getD_some] at this

/-- C4.  The counters move only when at least 3 seconds have elapsed
since the stored last-increment timestamp; along any trace the
increment times are pairwise more than 3 seconds apart, so any
3-second window contains at most one increment. -/
theorem update_statistics_debounce :
    (∀ (s : SessionState) (status : String) (t : ℚ),
      (update_statistics s status t).stats ≠ s.stats →
      3 ≤ t - s.last_detection_time.getD 0) ∧
    (∀ (s : SessionState) (evs : List (ℚ × String)),
      (inc_times s evs).Pairwise (fun a b : ℚ => a + 3 < b)) ∧
    (∀ (s : SessionState) (evs : List (ℚ × String)) (a : ℚ),
      ((inc_times s evs).filter
        (fun x => decide (a ≤ x) && decide (x ≤ a + 3))).length ≤ 1) := by
  have hpair : ∀ (s : SessionState) (evs : List (ℚ × String)),
      (inc_times s evs).Pairwise (fun a b : ℚ => a + 3 < b) := by
    intro s evs
    haveI : IsTrans ℚ (fun a b : ℚ => a + 3 < b) :=
      ⟨fun a b c hab hbc => by
        have h1 : a + 3 < b := hab
        have h2 : b + 3 < c := hbc
        show a + 3 < c
        linarith⟩
    exact List.chain'_iff_pairwise.mp (inc_times_sep evs s).2
  refine ⟨?_, hpair, ?_⟩
  · intro s status t hne
    by_contra hlt
    push_neg at hlt
    exact hne (us_stats_noninc s status t (by linarith))
  · intro s evs a
    have hp := (hpair s evs).filter
      (fun x => decide (a ≤ x) && decide (x ≤ a + 3))
    rcases hfe : (inc_times s evs).filter
        (fun x => decide (a ≤ x) && decide (x ≤ a + 3)) with _ | ⟨x, tail⟩
    · simp
    · rcases tail with _ | ⟨y, rest⟩
      · simp
      · exfalso
        rw [hfe] at hp
        have hxy : x + 3 < y :=
          (List.pairwise_cons.mp hp).1 y (List.mem_cons_self y rest)
        have hxmem : x ∈ (inc_times s evs).filter
            (fun x => decide (a ≤ x) && decide (x ≤ a + 3)) := by
          rw [hfe]; exact List.mem_cons_self x (y :: rest)
        have hymem : y ∈ (inc_times s evs).filter
            (fun x => decide (a ≤ x) && decide (x ≤ a + 3)) := by
          rw [hfe]; exact List.mem_cons_of_mem x (List.mem_cons_self y rest)
        have hxp := List.of_mem_filter hxmem
        have hyp := List.of_mem_filter hymem
        simp only [Bool.and_eq_true, decide_eq_true_eq] at hxp hyp
        linarith [hxp.1, hyp.2]

/-- Witness for C4: the very first event after construction increments
(the missing timestamp reads as 0), and indeed 3 seconds had passed. -/
theorem update_statistics_debounce_witness :
    3 ≤ (10 : ℚ) - (initState 0).last_detection_time.getD 0 :=
  update_statistics_debounce.1 (initState 0) "NG" 10 (by
    simp only [update_statistics]
    rw [if_pos]
    · simp [initState]
    · show (3 : ℚ) < 10 - (initState 0).last_detection_time.getD 0
      simp only [initState, Option.getD_none, sub_zero]
      decide)

end DashboardFix
